import Mathlib

/-!
Shallow embedding of the process-control engine of the `proctl` package
(`proctl_linux_amd64.go`): the breakpoint table (`Break`, `Clear`), the
stepping engine (`Step`, `Next`, `Continue`, `continueToReturnAddress`,
`clearTempBreakpoint`), and the memory readers of the variable evaluator
(`readString`, `readIntSlice`).

The tracee and the kernel are modelled by an explicit state `S`: the
tracee program counter and stack pointer, its byte memory, the debugger's
breakpoint table, the wait-status word, a schedule of kernel-error
injections (each ptrace/wait request consumes one entry; an empty schedule
means every request succeeds), and a trace of the kernel requests issued.
Immutable oracles (symbol table, frame descriptions) and the hardware
semantics of a single-step live in a `World` parameter.  Go's `uint64`
is modelled as `Nat` with explicit reduction modulo `2 ^ 64` at the
points where the Go code can wrap (`pc - 1`, `pc + ilen`, `8 * l`).
Go runtime panics (nil-pointer dereference, slice bounds) are modelled
by the `Res.panic` constructor.  Unbounded `for` loops are modelled with
a fuel parameter; exhausting the fuel yields the artificial error
`Err.fuelExhausted`, used by no claim.
-/

namespace Proctl

/-- Error values produced by the engine, mirroring the Go error values:
kernel/ptrace errors, `syscall.ECHILD`, `InvalidAddressError`,
`BreakPointExistsError`, the "No breakpoint currently set" error of
`Clear`, the wrapper applied by `Registers()`, and the `fmt.Errorf`
wrappers "step failed: " (in `Step`) and "next stepping failed: "
(in `Next`'s step closure).  `fdeNotFound` stands for the error of
`FrameEntries.FDEForPC`; `fuelExhausted` is a modelling artifact for
loop fuel running out. -/
inductive Err : Type where
  | kernel (n : Nat)
  | echild
  | invalidAddress (addr : Nat)
  | bpExists (file : String) (line : Nat) (addr : Nat)
  | noBreakPoint (pc : Nat)
  | registersErr (e : Err)
  | stepFailed (e : Err)
  | nextSteppingFailed (e : Err)
  | fdeNotFound (pc : Nat)
  | fuelExhausted
deriving DecidableEq, Repr

/-- Result of running a piece of the engine: a value, a Go error, or a
Go runtime panic. -/
inductive Res (α : Type) : Type where
  | ok (a : α)
  | err (e : Err)
  | panic (msg : String)
deriving DecidableEq, Repr

/-- Kernel requests, recorded in the trace in the order they are issued
(also when the request fails). -/
inductive Req : Type where
  | peek (addr : Nat)
  | poke (addr : Nat) (b : Nat)
  | peektext (addr : Nat)
  | getregs
  | setregs (rip : Nat) (rsp : Nat)
  | singlestep
  | cont (sig : Nat)
  | wait
deriving DecidableEq, Repr

/-- Wait-status word, reduced to the two observations `handleResult`
makes: `TrapCause()` and `Exited()`. -/
structure WaitStatus : Type where
  exited : Bool
  trapCause : Int
deriving DecidableEq, Repr

/-- Register snapshot; the code uses `Rip` (as `PC()`) and `Rsp`. -/
structure Regs : Type where
  rip : Nat
  rsp : Nat
deriving DecidableEq, Repr

/-- A breakpoint record, as in the Go `BreakPoint` struct.  The Go field
`OriginalData []byte` always holds exactly one byte; it is modelled as
that byte. -/
structure BreakPoint : Type where
  functionName : String
  file : String
  line : Nat
  addr : Nat
  originalData : Nat
deriving DecidableEq, Repr

/-- A frame-description entry, reduced to the two methods the stepping
engine calls: `Cover(pc)` and `ReturnAddressOffset(pc)`. -/
structure FDE : Type where
  cover : Nat → Bool
  retAddrOffset : Nat → Int

/-- Immutable oracles and hardware semantics: the symbol/line oracle
`PCToLine` (split into its three components), `FDEForPC`, the length of
the instruction the hardware executes on a single-step at a given pc,
the wait status observed after a single-step, and the pc/status the
tracee reaches when resumed by `PTRACE_CONT` (a function of the resume
pc and the current memory, so a scenario can place the stop at a trap
byte). -/
structure World : Type where
  pcFile : Nat → String
  pcLine : Nat → Nat
  pcFn : Nat → Option String
  fdeForPC : Nat → Option FDE
  ilen : Nat → Nat
  stepStatus : WaitStatus
  contRun : Nat → (Nat → Nat) → Nat × WaitStatus

/-- Full machine state threaded through the engine. -/
structure S : Type where
  tpc : Nat
  tsp : Nat
  mem : Nat → Nat
  breakPoints : List (Nat × BreakPoint)
  tstatus : WaitStatus
  processState : WaitStatus
  sched : List (Option Err)
  trace : List Req

/-- Go `uint64` decrement `pc - 1` with wraparound. -/
def pred64 (pc : Nat) : Nat :=
  (pc + (2 ^ 64 - 1)) % 2 ^ 64

/-- Lookup in the breakpoint table (the Go map `BreakPoints`). -/
def lookupBP : List (Nat × BreakPoint) → Nat → Option BreakPoint
  | [], _ => none
  | (k, bp) :: t, a => if k = a then some bp else lookupBP t a

/-- Removal from the breakpoint table (the Go `delete`). -/
def eraseBP (t : List (Nat × BreakPoint)) (k : Nat) : List (Nat × BreakPoint) :=
  t.filter (fun p => decide (p.1 ≠ k))

/-- Insertion into the breakpoint table (the Go map assignment). -/
def insertBP (t : List (Nat × BreakPoint)) (k : Nat) (bp : BreakPoint) :
    List (Nat × BreakPoint) :=
  (k, bp) :: eraseBP t k

/-- Issue one kernel request: record it in the trace and consume the
next entry of the error schedule (an empty schedule means success). -/
def popSched (s : S) (r : Req) : Option Err × S :=
  match s.sched with
  | [] => (none, { s with trace := s.trace ++ [r] })
  | e :: rest => (e, { s with trace := s.trace ++ [r], sched := rest })

/-- Model of `syscall.PtracePeekData` on a one-byte buffer: returns the
byte read, or the byte `0` together with the error (the Go buffer stays
zeroed when the call fails). -/
def peekByte (s : S) (addr : Nat) : (Option Err × Nat) × S :=
  match popSched s (Req.peek addr) with
  | (some e, s1) => ((some e, 0), s1)
  | (none, s1) => ((none, s1.mem addr), s1)

/-- Model of `syscall.PtracePokeData` on a one-byte buffer. -/
def pokeByte (s : S) (addr : Nat) (b : Nat) : Option Err × S :=
  match popSched s (Req.poke addr b) with
  | (some e, s1) => (some e, s1)
  | (none, s1) => (none, { s1 with mem := fun a => if a = addr then b else s1.mem a })

/-- Model of `syscall.PtraceSetRegs`. -/
def setRegsErr (s : S) (r : Regs) : Option Err × S :=
  match popSched s (Req.setregs r.rip r.rsp) with
  | (some e, s1) => (some e, s1)
  | (none, s1) => (none, { s1 with tpc := r.rip, tsp := r.rsp })

/-- Model of `syscall.PtraceSingleStep`: on success the hardware
executes the instruction at the current pc, advancing it by that
instruction's length (modulo `2 ^ 64`), and the next wait will observe
`W.stepStatus`. -/
def singleStepErr (W : World) (s : S) : Option Err × S :=
  match popSched s Req.singlestep with
  | (some e, s1) => (some e, s1)
  | (none, s1) =>
      (none, { s1 with tpc := (s1.tpc + W.ilen s1.tpc) % 2 ^ 64, tstatus := W.stepStatus })

/-- Model of `syscall.PtraceCont`: on success the tracee runs until the
stop described by `W.contRun`. -/
def contErr (W : World) (s : S) (sig : Nat) : Option Err × S :=
  match popSched s (Req.cont sig) with
  | (some e, s1) => (some e, s1)
  | (none, s1) =>
      let pr := W.contRun s1.tpc s1.mem
      (none, { s1 with tpc := pr.1, tstatus := pr.2 })

/-- Model of `wait` (the `syscall.Wait4` wrapper): returns the current
wait status of the tracee. -/
def waitOp (s : S) : Res WaitStatus × S :=
  match popSched s Req.wait with
  | (some e, s1) => (Res.err e, s1)
  | (none, s1) => (Res.ok s1.tstatus, s1)

/-- The `Registers()` accessor: `PtraceGetRegs`, with its error wrapped
by `fmt.Errorf("Registers():", err)`. -/
def Registers (s : S) : Res Regs × S :=
  match popSched s Req.getregs with
  | (some e, s1) => (Res.err (Err.registersErr e), s1)
  | (none, s1) => (Res.ok { rip := s1.tpc, rsp := s1.tsp }, s1)

/-- The `CurrentPC()` accessor. -/
def CurrentPC (s : S) : Res Nat × S :=
  match Registers s with
  | (Res.err e, s1) => (Res.err e, s1)
  | (Res.panic m, s1) => (Res.panic m, s1)
  | (Res.ok regs, s1) => (Res.ok regs.rip, s1)

/-- The trap byte `0xCC` (`INT 3`). -/
def int3 : Nat := 0xCC

/-- Transcription of `Break(addr)`: resolve `addr` against the symbol
oracle (fail with `InvalidAddressError` if no function covers it), read
the byte at `addr` (fail with `BreakPointExistsError` if it is already
`0xCC`), write `0xCC`, record the breakpoint keyed by `addr` and return
the new record. -/
def Break (W : World) (s : S) (addr : Nat) : Res BreakPoint × S :=
  let f := W.pcFile addr
  let l := W.pcLine addr
  match W.pcFn addr with
  | none => (Res.err (Err.invalidAddress addr), s)
  | some fn =>
    match peekByte s addr with
    | ((some e, _), s1) => (Res.err e, s1)
    | ((none, originalData), s1) =>
      if originalData = int3 then (Res.err (Err.bpExists f l addr), s1)
      else
        match pokeByte s1 addr int3 with
        | (some e, s2) => (Res.err e, s2)
        | (none, s2) =>
          let bp : BreakPoint :=
            { functionName := fn, file := f, line := l, addr := addr,
              originalData := originalData }
          (Res.ok bp, { s2 with breakPoints := insertBP s2.breakPoints addr bp })

/-- Transcription of `Clear(pc)`: look the breakpoint up (fail with the
"No breakpoint currently set" error if absent), restore the original
byte, drop the record and return it. -/
def Clear (s : S) (pc : Nat) : Res BreakPoint × S :=
  match lookupBP s.breakPoints pc with
  | none => (Res.err (Err.noBreakPoint pc), s)
  | some bp =>
    match pokeByte s bp.addr bp.originalData with
    | (some e, s1) => (Res.err e, s1)
    | (none, s1) => (Res.ok bp, { s1 with breakPoints := eraseBP s1.breakPoints pc })

/-- Transcription of `handleResult(err)`: propagate a non-nil argument;
otherwise wait (tolerating `ECHILD`, in which case the status pointer is
nil and the body is skipped), store the new status, and on a non-trap,
non-exit stop fetch the registers (for the diagnostic print, which the
model omits). -/
def handleResult (res : Option Err) (s : S) : Res Unit × S :=
  match res with
  | some e => (Res.err e, s)
  | none =>
    match waitOp s with
    | (Res.err e, s1) =>
        if e = Err.echild then (Res.ok (), s1) else (Res.err e, s1)
    | (Res.panic m, s1) => (Res.panic m, s1)
    | (Res.ok ps, s1) =>
        let s2 := { s1 with processState := ps }
        if ps.trapCause = -1 ∧ ps.exited = false then
          match Registers s2 with
          | (Res.err e, s3) => (Res.err e, s3)
          | (Res.panic m, s3) => (Res.panic m, s3)
          | (Res.ok _, s3) => (Res.ok (), s3)
        else (Res.ok (), s2)

/-- Transcription of `Step()`.  When a breakpoint is installed at
`pc - 1` the tracee just hit it: `Clear` it, rewind the pc, single-step,
and re-`Break` afterwards via `defer`.  The deferred closure assigns the
re-`Break` error to the named return value `err`, so on the crossed-
breakpoint path the final result of `Step` is always the result of the
deferred `Break`, whatever the single-step produced. -/
def Step (W : World) (s : S) : Res Unit × S :=
  match Registers s with
  | (Res.err e, s1) => (Res.err e, s1)
  | (Res.panic m, s1) => (Res.panic m, s1)
  | (Res.ok regs, s1) =>
    match lookupBP s1.breakPoints (pred64 regs.rip) with
    | none =>
      let pr := singleStepErr W s1
      match handleResult pr.1 pr.2 with
      | (Res.err e, s2) => (Res.err (Err.stepFailed e), s2)
      | (Res.panic m, s2) => (Res.panic m, s2)
      | (Res.ok _, s2) => (Res.ok (), s2)
    | some bp =>
      match Clear s1 bp.addr with
      | (Res.err e, s2) => (Res.err e, s2)
      | (Res.panic m, s2) => (Res.panic m, s2)
      | (Res.ok _, s2) =>
        match setRegsErr s2 { regs with rip := bp.addr } with
        | (some e, s3) => (Res.err e, s3)
        | (none, s3) =>
          let pr := singleStepErr W s3
          let hr := handleResult pr.1 pr.2
          match Break W hr.2 bp.addr with
          | (Res.ok _, s4) => (Res.ok (), s4)
          | (Res.err e, s4) => (Res.err e, s4)
          | (Res.panic m, s4) => (Res.panic m, s4)

/-- Transcription of `Continue()`: one `Step` first (returning its error
if it fails), then `handleResult(PtraceCont(pid, 0))`. -/
def Continue (W : World) (s : S) : Res Unit × S :=
  match Step W s with
  | (Res.err e, s1) => (Res.err e, s1)
  | (Res.panic m, s1) => (Res.panic m, s1)
  | (Res.ok _, s1) =>
    let pr := contErr W s1 0
    handleResult pr.1 pr.2

/-- Little-endian decoding of eight bytes (`binary.LittleEndian.Uint64`). -/
def u64le (b0 b1 b2 b3 b4 b5 b6 b7 : Nat) : Nat :=
  b0 + 256 * (b1 + 256 * (b2 + 256 * (b3 + 256 * (b4 + 256 * (b5 + 256 * (b6 + 256 * b7))))))

/-- Little-endian decoding of the first eight bytes of a buffer. -/
def le64OfBytes : List Nat → Nat
  | b0 :: b1 :: b2 :: b3 :: b4 :: b5 :: b6 :: b7 :: _ => u64le b0 b1 b2 b3 b4 b5 b6 b7
  | _ => 0

/-- Little-endian decoding of the eight bytes of memory at `p`. -/
def le64 (m : Nat → Nat) (p : Nat) : Nat :=
  u64le (m p) (m (p + 1)) (m (p + 2)) (m (p + 3)) (m (p + 4)) (m (p + 5)) (m (p + 6)) (m (p + 7))

/-- The `size` bytes of memory starting at `addr`. -/
def readBytes (m : Nat → Nat) (addr : Nat) : Nat → List Nat
  | 0 => []
  | n + 1 => m addr :: readBytes m (addr + 1) n

/-- Model of `readMemory(addr, size)` (a `PtracePeekData` on a
`size`-byte buffer). -/
def readMemory (s : S) (addr : Nat) (size : Nat) : Res (List Nat) × S :=
  match popSched s (Req.peek addr) with
  | (some e, s1) => (Res.err e, s1)
  | (none, s1) => (Res.ok (readBytes s1.mem addr size), s1)

/-- Transcription of `ReturnAddressFromOffset(offset)`: fetch the
registers (the Go code panics when that fails), add the signed offset to
`Rsp`, and `PtracePeekText` eight bytes there, ignoring the error of
that call (the buffer then stays zeroed, so the result is `0`). -/
def ReturnAddressFromOffset (s : S) (offset : Int) : Res Nat × S :=
  match Registers s with
  | (Res.err _, s1) => (Res.panic "Could not obtain register values", s1)
  | (Res.panic m, s1) => (Res.panic m, s1)
  | (Res.ok regs, s1) =>
    let retaddr : Nat := (((regs.rsp : Int) + offset).emod (2 ^ 64)).toNat
    match popSched s1 (Req.peektext retaddr) with
    | (some _, s2) => (Res.ok 0, s2)
    | (none, s2) => (Res.ok (le64 s2.mem retaddr), s2)

/-- Transcription of `clearTempBreakpoint(pc)`: when a breakpoint is
recorded at `pc`, fetch the registers, `Clear` it, rewind the pc to the
breakpoint address and write the registers back. -/
def clearTempBreakpoint (s : S) (pc : Nat) : Res Unit × S :=
  match lookupBP s.breakPoints pc with
  | none => (Res.ok (), s)
  | some _ =>
    match Registers s with
    | (Res.err e, s1) => (Res.err e, s1)
    | (Res.panic m, s1) => (Res.panic m, s1)
    | (Res.ok regs, s1) =>
      match Clear s1 pc with
      | (Res.err e, s2) => (Res.err e, s2)
      | (Res.panic m, s2) => (Res.panic m, s2)
      | (Res.ok bp2, s2) =>
        match setRegsErr s2 { regs with rip := bp2.addr } with
        | (some e, s3) => (Res.err e, s3)
        | (none, s3) => (Res.ok (), s3)

/-- Transcription of `continueToReturnAddress(pc, fde)`.  While the fde
does not cover the pc: place a temporary breakpoint at the return
address read at offset 0 from `Rsp`, tolerating `BreakPointExistsError`
(but then the local `bp` is Go `nil`); `Continue`; clear the temporary
breakpoint via `bp.Addr` — a nil-pointer dereference, hence a runtime
panic, on the tolerated-collision path; reread the pc (dropping the
error of `CurrentPC`, which leaves `pc = 0`) and iterate.  The loop is
fuelled. -/
def continueToReturnAddress (W : World) : Nat → Nat → FDE → S → Res Unit × S
  | 0, _, _, s => (Res.err Err.fuelExhausted, s)
  | fuel + 1, pc, fde, s =>
    if fde.cover pc then (Res.ok (), s)
    else
      match ReturnAddressFromOffset s 0 with
      | (Res.panic m, s1) => (Res.panic m, s1)
      | (Res.err e, s1) => (Res.err e, s1)
      | (Res.ok addr, s1) =>
        match Break W s1 addr with
        | (Res.panic m, s2) => (Res.panic m, s2)
        | (Res.err (Err.bpExists _ _ _), s2) =>
          match Continue W s2 with
          | (Res.err e, s3) => (Res.err e, s3)
          | (Res.panic m, s3) => (Res.panic m, s3)
          | (Res.ok _, s3) =>
            (Res.panic "runtime error: invalid memory address or nil pointer dereference", s3)
        | (Res.err e, s2) => (Res.err e, s2)
        | (Res.ok bp, s2) =>
          match Continue W s2 with
          | (Res.err e, s3) => (Res.err e, s3)
          | (Res.panic m, s3) => (Res.panic m, s3)
          | (Res.ok _, s3) =>
            match clearTempBreakpoint s3 bp.addr with
            | (Res.err e, s4) => (Res.err e, s4)
            | (Res.panic m, s4) => (Res.panic m, s4)
            | (Res.ok _, s4) =>
              match CurrentPC s4 with
              | (Res.ok pc2, s5) => continueToReturnAddress W fuel pc2 fde s5
              | (Res.err _, s5) => continueToReturnAddress W fuel 0 fde s5
              | (Res.panic m, s5) => (Res.panic m, s5)

/-- The `step` closure inside `Next`: a `Step` whose error is wrapped by
`fmt.Errorf("next stepping failed: ", ...)`, followed by `CurrentPC`. -/
def nextStep (W : World) (s : S) : Res Nat × S :=
  match Step W s with
  | (Res.err e, s1) => (Res.err (Err.nextSteppingFailed e), s1)
  | (Res.panic m, s1) => (Res.panic m, s1)
  | (Res.ok _, s1) => CurrentPC s1

/-- The `for` loop of `Next`, fuelled.  When the step leaves the current
frame (and did not land on the return address) the source calls
`continueToReturnAddress` WITHOUT assigning its return value: the `err`
variable inspected on the next line is the stale `nil` left by the
successful `step()`, so the `InvalidAddressError` check below the call
can never fire and any error of `continueToReturnAddress` is silently
dropped (a runtime panic still propagates).  The pc is then reread,
dropping the `CurrentPC` error (pc becomes 0), and the loop stops when
the line differs from the entry line `l`. -/
def nextLoop (W : World) : Nat → Nat → Nat → FDE → S → Res Unit × S
  | 0, _, _, _, s => (Res.err Err.fuelExhausted, s)
  | fuel + 1, l, ret, fde, s =>
    match nextStep W s with
    | (Res.err e, s1) => (Res.err e, s1)
    | (Res.panic m, s1) => (Res.panic m, s1)
    | (Res.ok pc, s1) =>
      if fde.cover pc = false ∧ pc ≠ ret then
        let cr := continueToReturnAddress W (fuel + 1) pc fde s1
        match cr.1 with
        | Res.panic m => (Res.panic m, cr.2)
        | _ =>
          let cp := CurrentPC cr.2
          let pc2 := match cp.1 with | Res.ok v => v | _ => 0
          if W.pcLine pc2 ≠ l then (Res.ok (), cp.2)
          else nextLoop W fuel l ret fde cp.2
      else
        if W.pcLine pc ≠ l then (Res.ok (), s1)
        else nextLoop W fuel l ret fde s1

/-- Transcription of `Next()`: read the pc (decrementing it when parked
one past an installed breakpoint), resolve the current line and the fde,
compute the return address of the current activation, and run the loop. -/
def Next (W : World) (fuel : Nat) (s : S) : Res Unit × S :=
  match CurrentPC s with
  | (Res.err e, s1) => (Res.err e, s1)
  | (Res.panic m, s1) => (Res.panic m, s1)
  | (Res.ok pc0, s1) =>
    let pc := match lookupBP s1.breakPoints (pred64 pc0) with
              | some _ => pred64 pc0
              | none => pc0
    let l := W.pcLine pc
    match W.fdeForPC pc with
    | none => (Res.err (Err.fdeNotFound pc), s1)
    | some fde =>
      match ReturnAddressFromOffset s1 (fde.retAddrOffset pc) with
      | (Res.panic m, s2) => (Res.panic m, s2)
      | (Res.err e, s2) => (Res.err e, s2)
      | (Res.ok ret, s2) => nextLoop W fuel l ret fde s2

/-- Transcription of `readString(addr)`: read the eight-byte data
pointer, dereference it, read sixteen bytes there, and truncate at the
first NUL.  When no NUL occurs in the sixteen bytes, `bytes.IndexByte`
returns `-1` and the Go slice expression `val[:i]` panics.  The Go
string result is represented by its byte list. -/
def readString (s : S) (addr : Nat) : Res (List Nat) × S :=
  match readMemory s addr 8 with
  | (Res.err e, s1) => (Res.err e, s1)
  | (Res.panic m, s1) => (Res.panic m, s1)
  | (Res.ok val, s1) =>
    let addr2 := le64OfBytes val
    match readMemory s1 addr2 16 with
    | (Res.err e, s2) => (Res.err e, s2)
    | (Res.panic m, s2) => (Res.panic m, s2)
    | (Res.ok val2, s2) =>
      match val2.findIdx? (fun b => b == 0) with
      | none => (Res.panic "runtime error: slice bounds out of range", s2)
      | some i => (Res.ok (val2.take i), s2)

/-- The loop of `binary.Read` calls in `readIntSlice`: decode successive
little-endian 64-bit values until fewer than eight bytes remain. -/
def decodeU64s : List Nat → List Nat
  | b0 :: b1 :: b2 :: b3 :: b4 :: b5 :: b6 :: b7 :: rest =>
      u64le b0 b1 b2 b3 b4 b5 b6 b7 :: decodeU64s rest
  | _ => []

/-- Rendering of a `[]uint64` by the `%d` verb of `fmt.Sprintf`. -/
def goFmtNatList (xs : List Nat) : String :=
  "[" ++ String.intercalate " " (xs.map Nat.repr) ++ "]"

/-- Transcription of `readIntSlice(addr)`: read the 24-byte slice header
at `addr`, decode the data pointer, length and capacity little-endian,
read `8 * len` bytes at the data pointer (`uint64` multiplication, hence
the reduction modulo `2 ^ 64`), decode the elements, and render
`fmt.Sprintf("len: %d cap: %d %d", l, c, members)`. -/
def readIntSlice (s : S) (addr : Nat) : Res String × S :=
  match readMemory s addr 24 with
  | (Res.err e, s1) => (Res.err e, s1)
  | (Res.panic m, s1) => (Res.panic m, s1)
  | (Res.ok val, s1) =>
    let a := le64OfBytes (val.take 8)
    let l := le64OfBytes ((val.drop 8).take 8)
    let c := le64OfBytes (val.drop 16)
    match readMemory s1 a ((8 * l) % 2 ^ 64) with
    | (Res.err e, s2) => (Res.err e, s2)
    | (Res.panic m, s2) => (Res.panic m, s2)
    | (Res.ok val2, s2) =>
      let members := decodeU64s val2
      (Res.ok ("len: " ++ Nat.repr l ++ " cap: " ++ Nat.repr c ++ " " ++ goFmtNatList members), s2)

/-- The dispatch of `extractValue` on a struct type: the struct named
`string` is read by `readString`, the struct named `[]int` by
`readIntSlice` (other struct types recurse field by field, which no
claim exercises). -/
def extractStructValue (s : S) (structName : String) (offaddr : Nat) :
    Option (Res (List Nat) × S ⊕ Res String × S) :=
  if structName = "string" then some (Sum.inl (readString s offaddr))
  else if structName = "[]int" then some (Sum.inr (readIntSlice s offaddr))
  else none

/-! ### Concrete scenarios

A small concrete program image shared by the scenario states: a function
`main.f` covering addresses 100 ≤ pc < 300, whose frame-description
entry `fdeF` covers 100 ≤ pc < 200 (so addresses in 200 ≤ pc < 300 play
the role of a callee's body); source line 10 below address 200 and line
20 from 200 to 299; no function covers address 999.  The tracee starts
at pc 105 with `Rsp` 5000, and the eight bytes at 5000 hold the return
address used by `continueToReturnAddress`. -/

/-- Wait status of a tracee stopped by a trap. -/
def wsTrap : WaitStatus := { exited := false, trapCause := 5 }

/-- Frame-description entry of the current activation in the scenarios. -/
def fdeF : FDE :=
  { cover := fun pc => decide (100 ≤ pc ∧ pc < 200), retAddrOffset := fun _ => 0 }

/-- World for the C1 scenario: the instruction at 105 is a call landing
at 200 (outside `fdeF`), and the saved return address decodes to 999,
which no function covers. -/
def w1 : World :=
  { pcFile := fun _ => "main.go",
    pcLine := fun pc => if pc < 200 then 10 else if pc < 300 then 20 else 0,
    pcFn := fun pc => if 100 ≤ pc ∧ pc < 300 then some "main.f" else none,
    fdeForPC := fun pc => if pc < 200 then some fdeF else none,
    ilen := fun pc => if pc = 105 then 95 else 1,
    stepStatus := wsTrap,
    contRun := fun pc _ => (pc, wsTrap) }

/-- Memory for the C1 scenario: the eight bytes at `Rsp = 5000` decode
little-endian to 999; everything else is the one-byte instruction 0x90. -/
def memC1 : Nat → Nat := fun a =>
  if a = 5000 then 231 else if a = 5001 then 3 else
  if 5000 ≤ a ∧ a < 5008 then 0 else 144

/-- Entry state for the C1 scenario: stopped at pc 105, no breakpoints,
every kernel request succeeding. -/
def s1 : S :=
  { tpc := 105, tsp := 5000, mem := memC1, breakPoints := [],
    tstatus := wsTrap, processState := wsTrap, sched := [], trace := [] }

/-- World for the C2 and C7 scenarios: the call at 105 lands at 200 and
the saved return address decodes to 150, which `main.f` covers. -/
def w2 : World :=
  { pcFile := fun _ => "main.go",
    pcLine := fun pc => if pc < 200 then 10 else if pc < 300 then 20 else 0,
    pcFn := fun pc => if 100 ≤ pc ∧ pc < 300 then some "main.f" else none,
    fdeForPC := fun pc => if pc < 200 then some fdeF else none,
    ilen := fun pc => if pc = 105 then 95 else 3,
    stepStatus := wsTrap,
    contRun := fun _ _ => (151, wsTrap) }

/-- Memory for the C2 scenario: a trap byte is already installed at the
return address 150 (a user breakpoint), and the bytes at 5000 decode to
150. -/
def memC2 : Nat → Nat := fun a =>
  if a = 150 then 204 else if a = 5000 then 150 else
  if 5000 < a ∧ a < 5008 then 0 else 144

/-- The user breakpoint installed at 150 in the C2 scenario. -/
def userBp : BreakPoint :=
  { functionName := "main.f", file := "main.go", line := 10, addr := 150,
    originalData := 144 }

/-- Entry state for the C2 scenario: a user breakpoint at 150 (with the
trap byte in memory), tracee at 105. -/
def s2 : S :=
  { tpc := 105, tsp := 5000, mem := memC2, breakPoints := [(150, userBp)],
    tstatus := wsTrap, processState := wsTrap, sched := [], trace := [] }

/-- Memory for the C7 scenario: the bytes at 5000 decode to 150; no trap
byte anywhere. -/
def memC7 : Nat → Nat := fun a =>
  if a = 5000 then 150 else if 5000 < a ∧ a < 5008 then 0 else 144

/-- Entry state for the C7 scenario: no breakpoints; the 13th kernel
request — the single-step issued by the `Step` inside the `Continue` of
`continueToReturnAddress`, right after the temporary breakpoint was
placed at 150 — fails with a kernel error; every other request
succeeds. -/
def s7 : S :=
  { tpc := 105, tsp := 5000, mem := memC7, breakPoints := [],
    tstatus := wsTrap, processState := wsTrap,
    sched := List.replicate 12 none ++ [some (Err.kernel 1)], trace := [] }

/-- World for the C5 counterexample: every instruction is one byte long. -/
def w5 : World :=
  { pcFile := fun _ => "main.go",
    pcLine := fun pc => if pc < 200 then 10 else 0,
    pcFn := fun pc => if 100 ≤ pc ∧ pc < 300 then some "main.f" else none,
    fdeForPC := fun pc => if pc < 200 then some fdeF else none,
    ilen := fun _ => 1,
    stepStatus := wsTrap,
    contRun := fun pc _ => (pc, wsTrap) }

/-- The breakpoint the C5 counterexample tracee is parked on: installed
at 100 over a one-byte instruction (0x90). -/
def bp5 : BreakPoint :=
  { functionName := "main.f", file := "main.go", line := 10, addr := 100,
    originalData := 144 }

/-- Entry state for the C5 counterexample: the tracee just hit the
breakpoint at 100, so its pc is 101; the trap byte is in memory. -/
def s5 : S :=
  { tpc := 101, tsp := 5000, mem := fun a => if a = 100 then 204 else 144,
    breakPoints := [(100, bp5)],
    tstatus := wsTrap, processState := wsTrap, sched := [], trace := [] }

/-- Variant of `s5` in which the fourth kernel request — the single-step
issued by `Step` after clearing the breakpoint and rewinding the pc —
fails with a kernel error, while every other request succeeds. -/
def s5f : S :=
  { tpc := 101, tsp := 5000, mem := fun a => if a = 100 then 204 else 144,
    breakPoints := [(100, bp5)],
    tstatus := wsTrap, processState := wsTrap,
    sched := [none, none, none, some (Err.kernel 3)], trace := [] }

/-- The state the C1 `Next` run has reached when it enters
`continueToReturnAddress`: the tracee has stepped from 105 into the
callee at 200, after seven kernel requests. -/
def s1mid : S :=
  { tpc := 200, tsp := 5000, mem := memC1, breakPoints := [],
    tstatus := wsTrap, processState := wsTrap, sched := [],
    trace := [Req.getregs, Req.getregs, Req.peektext 5000, Req.getregs,
              Req.singlestep, Req.wait, Req.getregs] }

/-- State whose very first kernel request (the `PtraceGetRegs` of the
initial `Step` of `Continue`) fails. -/
def sE : S :=
  { tpc := 105, tsp := 5000, mem := memC1, breakPoints := [],
    tstatus := wsTrap, processState := wsTrap,
    sched := [some (Err.kernel 7)], trace := [] }

/-- The state `Step` leaves behind when started from `sE`. -/
def sEout : S :=
  { tpc := 105, tsp := 5000, mem := memC1, breakPoints := [],
    tstatus := wsTrap, processState := wsTrap, sched := [],
    trace := [Req.getregs] }

/-- The state `Step` leaves behind when started from `s1` (a successful
plain step from 105 to 200). -/
def s1ok : S :=
  { tpc := 200, tsp := 5000, mem := memC1, breakPoints := [],
    tstatus := wsTrap, processState := wsTrap, sched := [],
    trace := [Req.getregs, Req.singlestep, Req.wait] }

/-- Memory for the C8 witness: a slice header at address 0 with data
pointer 100, length 3, capacity 5, and the elements 1, 2, 3 stored
little-endian at 100, 108, 116. -/
def memC8 : Nat → Nat := fun a =>
  if a = 0 then 100 else if a = 8 then 3 else if a = 16 then 5 else
  if a = 100 then 1 else if a = 108 then 2 else if a = 116 then 3 else 0

/-- Entry state for the C8 witness. -/
def s8 : S :=
  { tpc := 0, tsp := 0, mem := memC8, breakPoints := [],
    tstatus := wsTrap, processState := wsTrap, sched := [], trace := [] }

/-- Entry state for the C9 witness: every byte of tracee memory is 1, so
no sixteen-byte window contains a NUL. -/
def s9 : S :=
  { tpc := 0, tsp := 0, mem := fun _ => 1, breakPoints := [],
    tstatus := wsTrap, processState := wsTrap, sched := [], trace := [] }

/-! ### Helper lemmas -/

theorem lookupBP_insert_self (t : List (Nat × BreakPoint)) (k : Nat) (bp : BreakPoint) :
    lookupBP (insertBP t k bp) k = some bp := by
  simp [insertBP, lookupBP]

theorem lookupBP_erase_ne (t : List (Nat × BreakPoint)) (k k' : Nat) (h : k' ≠ k) :
    lookupBP (eraseBP t k) k' = lookupBP t k' := by
  induction t with
  | nil => rfl
  | cons p t ih =>
    obtain ⟨a, b⟩ := p
    by_cases ha : a = k
    · subst ha
      simp [eraseBP, lookupBP, Ne.symm h]
      simpa [eraseBP] using ih
    · by_cases ha' : a = k'
      · subst ha'
        simp [eraseBP, lookupBP, ha]
      · simp [eraseBP, lookupBP, ha, ha']
        simpa [eraseBP] using ih

theorem lookupBP_erase_self (t : List (Nat × BreakPoint)) (k : Nat) :
    lookupBP (eraseBP t k) k = none := by
  induction t with
  | nil => rfl
  | cons p t ih =>
    obtain ⟨a, b⟩ := p
    by_cases ha : a = k
    · simpa [eraseBP, ha] using ih
    · simpa [eraseBP, lookupBP, ha] using ih

theorem lookupBP_insert_ne (t : List (Nat × BreakPoint)) (k k' : Nat) (bp : BreakPoint)
    (h : k' ≠ k) :
    lookupBP (insertBP t k bp) k' = lookupBP t k' := by
  simp [insertBP, lookupBP, Ne.symm h, lookupBP_erase_ne t k k' h]

theorem pred64_eq (pc : Nat) (h0 : 0 < pc) (h1 : pc < 2 ^ 64) : pred64 pc = pc - 1 := by
  unfold pred64
  omega

/-- Characterization of a successful `Break`: the full output state. -/
theorem Break_ok (W : World) (s : S) (addr : Nat) (fn : String)
    (hs : s.sched = []) (hfn : W.pcFn addr = some fn) (hmem : s.mem addr ≠ int3) :
    Break W s addr =
      (Res.ok
        { functionName := fn, file := W.pcFile addr, line := W.pcLine addr,
          addr := addr, originalData := s.mem addr },
       { tpc := s.tpc, tsp := s.tsp,
         mem := fun a => if a = addr then int3 else s.mem a,
         breakPoints := insertBP s.breakPoints addr
           { functionName := fn, file := W.pcFile addr, line := W.pcLine addr,
             addr := addr, originalData := s.mem addr },
         tstatus := s.tstatus, processState := s.processState,
         sched := [],
         trace := s.trace ++ [Req.peek addr, Req.poke addr int3] }) := by
  simp [Break, peekByte, pokeByte, popSched, hs, hfn, hmem]

theorem readBytes_add_eight (m : Nat → Nat) (a n : Nat) :
    readBytes m a (n + 8) =
      m a :: m (a + 1) :: m (a + 2) :: m (a + 3) :: m (a + 4) :: m (a + 5) ::
      m (a + 6) :: m (a + 7) :: readBytes m (a + 8) n := rfl

theorem le64OfBytes_readBytes8 (m : Nat → Nat) (p : Nat) :
    le64OfBytes (readBytes m p 8) = le64 m p := rfl

theorem le64OfBytes_take8 (m : Nat → Nat) (p : Nat) :
    le64OfBytes ((readBytes m p 24).take 8) = le64 m p := rfl

theorem le64OfBytes_drop8_take8 (m : Nat → Nat) (p : Nat) :
    le64OfBytes (((readBytes m p 24).drop 8).take 8) = le64 m (p + 8) := rfl

theorem le64OfBytes_drop16 (m : Nat → Nat) (p : Nat) :
    le64OfBytes ((readBytes m p 24).drop 16) = le64 m (p + 16) := rfl

/-- The `binary.Read` loop over a buffer of `8 * l` bytes read at `a`
decodes exactly the `l` little-endian 64-bit words at `a`, `a + 8`, …. -/
theorem decodeU64s_readBytes (m : Nat → Nat) (l : Nat) :
    ∀ a, decodeU64s (readBytes m a (8 * l)) =
      (List.range l).map (fun j => le64 m (a + 8 * j)) := by
  induction l with
  | zero => intro a; rfl
  | succ l ih =>
    intro a
    rw [Nat.mul_succ, readBytes_add_eight, List.range_succ_eq_map]
    simp only [decodeU64s, List.map_cons, List.map_map]
    refine List.cons_eq_cons.mpr ⟨?_, ?_⟩
    · simp [le64]
    · rw [ih (a + 8)]
      apply List.map_congr_left
      intro j _
      simp only [Function.comp_apply]
      congr 1
      omega

/-- Every byte of a window whose bytes are all nonzero is nonzero. -/
theorem readBytes_all_ne (m : Nat → Nat) (n : Nat) :
    ∀ p, (∀ k, k < n → m (p + k) ≠ 0) → ∀ b ∈ readBytes m p n, b ≠ 0 := by
  induction n with
  | zero => intro p _ b hb; cases hb
  | succ n ih =>
    intro p h b hb
    rw [readBytes, List.mem_cons] at hb
    rcases hb with hb | hb
    · have h0 := h 0 (by omega)
      simpa [hb] using h0
    · refine ih (p + 1) ?_ b hb
      intro k hk
      have heq : p + 1 + k = p + (k + 1) := by omega
      rw [heq]
      exact h (k + 1) (by omega)

/-! ### Claim theorems -/

/-- C1.  The claim says that when `continueToReturnAddress`'s temporary
breakpoint placement fails with `InvalidAddressError`, `Next` aborts and
returns that error.  The code refutes this: `Next` calls
`continueToReturnAddress` without assigning its return value, so the
`InvalidAddressError` type check on the next line inspects a stale nil
`err` and the error is dropped.  In the C1 scenario the temporary
breakpoint target is address 999, which no function covers: `Break`
yields `InvalidAddressError` (first conjunct, for every state), the
`continueToReturnAddress` call that the run reaches returns exactly that
error (second conjunct), and yet `Next` returns nil (third conjunct),
leaving the breakpoint table as it was (fourth conjunct). -/
theorem next_swallows_invalid_address_error :
    (∀ s : S, (Break w1 s 999).1 = Res.err (Err.invalidAddress 999)) ∧
    (continueToReturnAddress w1 5 200 fdeF s1mid).1 =
      Res.err (Err.invalidAddress 999) ∧
    (Next w1 5 s1).1 = Res.ok () ∧
    (Next w1 5 s1).2.breakPoints = s1.breakPoints :=
  ⟨fun _ => rfl, by decide, by decide, by decide⟩

/-- C2.  The claim says that when the temporary breakpoint of `Next`
collides with an existing user breakpoint (`Break` returns
`BreakPointExistsError`), the operation proceeds normally with the
existing breakpoint, neither failing nor crashing.  The code refutes
this: on the collision path the local `bp` returned by `Break` is Go
nil, and `dbp.clearTempBreakpoint(bp.Addr)` dereferences it, so `Next`
panics.  In the C2 scenario a user breakpoint is installed at the return
address 150 (trap byte in memory, record in the table), and `Next`
panics with the nil-pointer runtime error; the user breakpoint record
itself is left in the table. -/
theorem next_panics_on_breakpoint_collision :
    lookupBP s2.breakPoints 150 = some userBp ∧
    s2.mem 150 = int3 ∧
    (Next w2 5 s2).1 =
      Res.panic "runtime error: invalid memory address or nil pointer dereference" ∧
    (Next w2 5 s2).2.breakPoints = [(150, userBp)] := by
  refine ⟨by decide, by decide, by decide, by decide⟩

/-- C3.  `Break(addr)` fails with `InvalidAddressError` when no function
covers `addr` (leaving the state untouched); when a function covers it
and the byte at `addr` is already `0xCC` it fails with
`BreakPointExistsError` carrying the file, line and address; otherwise
it returns a record holding the displaced original byte, writes `0xCC`
at `addr` (and nowhere else), records the breakpoint in the table keyed
by `addr` (disturbing no other key), and a second `Break` at the same
address then fails with `BreakPointExistsError`. -/
theorem break_spec (W : World) (s : S) (addr : Nat) (hs : s.sched = []) :
    (W.pcFn addr = none → Break W s addr = (Res.err (Err.invalidAddress addr), s)) ∧
    (∀ fn, W.pcFn addr = some fn →
      (s.mem addr = int3 →
        (Break W s addr).1 =
          Res.err (Err.bpExists (W.pcFile addr) (W.pcLine addr) addr)) ∧
      (s.mem addr ≠ int3 →
        (Break W s addr).1 = Res.ok
          { functionName := fn, file := W.pcFile addr, line := W.pcLine addr,
            addr := addr, originalData := s.mem addr } ∧
        ((Break W s addr).2).mem addr = int3 ∧
        (∀ a, a ≠ addr → ((Break W s addr).2).mem a = s.mem a) ∧
        lookupBP ((Break W s addr).2).breakPoints addr = some
          { functionName := fn, file := W.pcFile addr, line := W.pcLine addr,
            addr := addr, originalData := s.mem addr } ∧
        (∀ k, k ≠ addr →
          lookupBP ((Break W s addr).2).breakPoints k = lookupBP s.breakPoints k) ∧
        (Break W ((Break W s addr).2) addr).1 =
          Res.err (Err.bpExists (W.pcFile addr) (W.pcLine addr) addr))) := by
  constructor
  · intro hnone
    simp [Break, hnone]
  · intro fn hfn
    constructor
    · intro hcc
      simp [Break, peekByte, pokeByte, popSched, hs, hfn, hcc]
    · intro hmem
      rw [Break_ok W s addr fn hs hfn hmem]
      refine ⟨rfl, by simp, fun a ha => by simp [ha], ?_, ?_, ?_⟩
      · exact lookupBP_insert_self _ _ _
      · intro k hk
        exact lookupBP_insert_ne _ _ _ _ hk
      · simp [Break, peekByte, pokeByte, popSched, hfn, int3]

/-- Witness for C3: at address 150 of the concrete scenario, `Break`
succeeds with the displaced byte 0x90, installs the trap byte, records
the breakpoint, and a second `Break` fails with
`BreakPointExistsError`. -/
theorem break_spec_witness :
    s1.sched = [] ∧ s1.mem 150 ≠ int3 ∧
    (Break w1 s1 150).1 = Res.ok
      { functionName := "main.f", file := "main.go", line := 10, addr := 150,
        originalData := 144 } ∧
    ((Break w1 s1 150).2).mem 150 = int3 ∧
    lookupBP ((Break w1 s1 150).2).breakPoints 150 = some
      { functionName := "main.f", file := "main.go", line := 10, addr := 150,
        originalData := 144 } ∧
    (Break w1 ((Break w1 s1 150).2) 150).1 =
      Res.err (Err.bpExists "main.go" 10 150) := by
  have h := ((break_spec w1 s1 150 rfl).2 "main.f" (by decide)).2 (by decide)
  exact ⟨rfl, by decide, h.1, h.2.1, h.2.2.2.1, h.2.2.2.2.2⟩

/-- C4.  After a successful `Break(a)`, `Clear(a)` returns the record
that `Break` created, restores the displaced original byte at `a`
byte-for-byte (touching no other byte), and removes the entry from the
table (touching no other key); and `Clear(pc)` on a `pc` with no
recorded breakpoint fails with the "no breakpoint set" error and
changes nothing. -/
theorem clear_spec (W : World) (s : S) (addr : Nat) (fn : String) (hs : s.sched = [])
    (hfn : W.pcFn addr = some fn) (hmem : s.mem addr ≠ int3) :
    (∀ (s0 : S) (pc : Nat), lookupBP s0.breakPoints pc = none →
        Clear s0 pc = (Res.err (Err.noBreakPoint pc), s0)) ∧
    (Clear ((Break W s addr).2) addr).1 = Res.ok
      { functionName := fn, file := W.pcFile addr, line := W.pcLine addr,
        addr := addr, originalData := s.mem addr } ∧
    ((Clear ((Break W s addr).2) addr).2).mem addr = s.mem addr ∧
    (∀ a, a ≠ addr → ((Clear ((Break W s addr).2) addr).2).mem a = s.mem a) ∧
    lookupBP ((Clear ((Break W s addr).2) addr).2).breakPoints addr = none ∧
    (∀ k, k ≠ addr →
      lookupBP ((Clear ((Break W s addr).2) addr).2).breakPoints k =
        lookupBP s.breakPoints k) := by
  refine ⟨?_, ?_⟩
  · intro s0 pc h
    simp [Clear, h]
  · rw [Break_ok W s addr fn hs hfn hmem]
    refine ⟨?_, ?_, ?_, ?_, ?_⟩
    · simp [Clear, lookupBP_insert_self, pokeByte, popSched]
    · simp [Clear, lookupBP_insert_self, pokeByte, popSched]
    · intro a ha
      simp [Clear, lookupBP_insert_self, pokeByte, popSched, ha]
    · simp [Clear, lookupBP_insert_self, pokeByte, popSched, lookupBP_erase_self]
    · intro k hk
      simp [Clear, lookupBP_insert_self, pokeByte, popSched,
        lookupBP_erase_ne _ _ _ hk, lookupBP_insert_ne _ _ _ _ hk]

/-- Witness for C4: in the concrete scenario, `Break(150); Clear(150)`
restores the original byte 0x90 and empties the table entry, and
`Clear(42)` with no breakpoint recorded at 42 fails with the
"no breakpoint set" error leaving the state unchanged. -/
theorem clear_spec_witness :
    Clear s1 42 = (Res.err (Err.noBreakPoint 42), s1) ∧
    (Clear ((Break w1 s1 150).2) 150).1 = Res.ok
      { functionName := "main.f", file := "main.go", line := 10, addr := 150,
        originalData := 144 } ∧
    ((Clear ((Break w1 s1 150).2) 150).2).mem 150 = 144 ∧
    lookupBP ((Clear ((Break w1 s1 150).2) 150).2).breakPoints 150 = none := by
  have h := clear_spec w1 s1 150 "main.f" rfl (by decide) (by decide)
  exact ⟨h.1 s1 42 rfl, h.2.1, h.2.2.1, h.2.2.2.2.1⟩

/-- C5, counterexample.  The claim asserts that after a successful
`Step` that crossed a breakpoint the new pc is strictly greater than the
pre-step pc.  With a one-byte instruction displaced by the breakpoint
(`w5.ilen` is constantly 1, as for `0x90 NOP`), the tracee is parked at
101 on the breakpoint at 100; `Step` succeeds, and the new pc is
`100 + 1 = 101`, exactly the pre-step pc — not strictly greater. -/
theorem step_pc_not_strictly_greater :
    lookupBP s5.breakPoints (pred64 s5.tpc) = some bp5 ∧
    s5.mem bp5.addr = int3 ∧
    (Step w5 s5).1 = Res.ok () ∧
    ((Step w5 s5).2).tpc = s5.tpc ∧
    ¬ s5.tpc < ((Step w5 s5).2).tpc := by
  refine ⟨by decide, by decide, by decide, by decide, by decide⟩

/-- C5, amended.  For every `Step` that starts with a breakpoint
installed at `pc - 1` (hypotheses: the record is in the table under that
key and carries that address, a function covers it, the displaced byte
is not itself `0xCC`, the pc does not wrap, the instruction has positive
length and its execution does not wrap, and the post-step status is not
a non-trap stop): when every kernel request succeeds, `Step` succeeds,
the trap byte is back in memory and the record back in the table, the
new pc is the breakpoint address plus the instruction length — hence AT
LEAST the pre-step pc (equality is possible, so "strictly greater" had
to be weakened) — and the kernel trace shows the restore-poke and the
rewind before the single-step and the re-installing peek/poke after it;
when instead the single-step request itself fails, the breakpoint is
still re-installed (trap byte in memory, record in the table). -/
theorem step_crossed_breakpoint_spec (W : World) (s : S) (bp : BreakPoint) (fn : String)
    (hbp : lookupBP s.breakPoints (pred64 s.tpc) = some bp)
    (haddr : bp.addr = pred64 s.tpc)
    (hfn : W.pcFn bp.addr = some fn)
    (horig : bp.originalData ≠ int3)
    (h0 : 0 < s.tpc) (h1 : s.tpc < 2 ^ 64)
    (hlen : 1 ≤ W.ilen bp.addr) (hlen2 : bp.addr + W.ilen bp.addr < 2 ^ 64)
    (hstat : ¬(W.stepStatus.trapCause = -1 ∧ W.stepStatus.exited = false)) :
    (s.sched = [] →
      (Step W s).1 = Res.ok () ∧
      ((Step W s).2).mem bp.addr = int3 ∧
      lookupBP ((Step W s).2).breakPoints bp.addr = some
        { functionName := fn, file := W.pcFile bp.addr, line := W.pcLine bp.addr,
          addr := bp.addr, originalData := bp.originalData } ∧
      ((Step W s).2).tpc = bp.addr + W.ilen bp.addr ∧
      s.tpc ≤ ((Step W s).2).tpc ∧
      ((Step W s).2).trace = s.trace ++
        [Req.getregs, Req.poke bp.addr bp.originalData, Req.setregs bp.addr s.tsp,
         Req.singlestep, Req.wait, Req.peek bp.addr, Req.poke bp.addr int3]) ∧
    (∀ e : Err, s.sched = [none, none, none, some e] →
      ((Step W s).2).mem bp.addr = int3 ∧
      lookupBP ((Step W s).2).breakPoints bp.addr = some
        { functionName := fn, file := W.pcFile bp.addr, line := W.pcLine bp.addr,
          addr := bp.addr, originalData := bp.originalData } ∧
      ((Step W s).2).trace = s.trace ++
        [Req.getregs, Req.poke bp.addr bp.originalData, Req.setregs bp.addr s.tsp,
         Req.singlestep, Req.peek bp.addr, Req.poke bp.addr int3]) := by
  have hbp2 : lookupBP s.breakPoints bp.addr = some bp := by rw [haddr]; exact hbp
  have hp : pred64 s.tpc = s.tpc - 1 := pred64_eq s.tpc h0 h1
  constructor
  · intro hs
    have htpc : ((Step W s).2).tpc = bp.addr + W.ilen bp.addr := by
      simp [Step, Registers, Clear, pokeByte, setRegsErr, singleStepErr, handleResult,
        waitOp, popSched, Break, peekByte, hs, hbp, hbp2, hfn, horig, hstat]
      omega
    refine ⟨?_, ?_, ?_, htpc, ?_, ?_⟩
    · simp [Step, Registers, Clear, pokeByte, setRegsErr, singleStepErr, handleResult,
        waitOp, popSched, Break, peekByte, hs, hbp, hbp2, hfn, horig, hstat]
    · simp [Step, Registers, Clear, pokeByte, setRegsErr, singleStepErr, handleResult,
        waitOp, popSched, Break, peekByte, hs, hbp, hbp2, hfn, horig, hstat]
    · simp [Step, Registers, Clear, pokeByte, setRegsErr, singleStepErr, handleResult,
        waitOp, popSched, Break, peekByte, insertBP, lookupBP, eraseBP,
        hs, hbp, hbp2, hfn, horig, hstat]
    · rw [htpc]
      omega
    · simp [Step, Registers, Clear, pokeByte, setRegsErr, singleStepErr, handleResult,
        waitOp, popSched, Break, peekByte, hs, hbp, hbp2, hfn, horig, hstat]
  · intro e hs
    refine ⟨?_, ?_, ?_⟩
    · simp [Step, Registers, Clear, pokeByte, setRegsErr, singleStepErr, handleResult,
        waitOp, popSched, Break, peekByte, hs, hbp, hbp2, hfn, horig, hstat]
    · simp [Step, Registers, Clear, pokeByte, setRegsErr, singleStepErr, handleResult,
        waitOp, popSched, Break, peekByte, insertBP, lookupBP, eraseBP,
        hs, hbp, hbp2, hfn, horig, hstat]
    · simp [Step, Registers, Clear, pokeByte, setRegsErr, singleStepErr, handleResult,
        waitOp, popSched, Break, peekByte, hs, hbp, hbp2, hfn, horig, hstat]

/-- Witness for the amended C5: in the one-byte-instruction scenario the
successful `Step` re-installs the breakpoint (trap byte and record) and
reaches pc 101, which is at least — here exactly — the pre-step pc; and
in the variant whose single-step request fails, the breakpoint is still
re-installed. -/
theorem step_crossed_breakpoint_spec_witness :
    (Step w5 s5).1 = Res.ok () ∧
    ((Step w5 s5).2).mem 100 = int3 ∧
    lookupBP ((Step w5 s5).2).breakPoints 100 = some bp5 ∧
    ((Step w5 s5).2).tpc = 101 ∧
    s5.tpc ≤ ((Step w5 s5).2).tpc ∧
    ((Step w5 s5f).2).mem 100 = int3 ∧
    lookupBP ((Step w5 s5f).2).breakPoints 100 = some bp5 := by
  have hA := (step_crossed_breakpoint_spec w5 s5 bp5 "main.f" (by decide) (by decide)
    (by decide) (by decide) (by decide) (by decide) (by decide) (by decide)
    (by decide)).1 rfl
  have hB := (step_crossed_breakpoint_spec w5 s5f bp5 "main.f" (by decide) (by decide)
    (by decide) (by decide) (by decide) (by decide) (by decide) (by decide)
    (by decide)).2 (Err.kernel 3) rfl
  refine ⟨hA.1, hA.2.1, ?_, ?_, hA.2.2.2.2.1, hB.1, ?_⟩
  · exact hA.2.2.1.trans (by decide)
  · exact hA.2.2.2.1.trans (by decide)
  · exact hB.2.1.trans (by decide)

/-- C6.  `Continue` performs exactly one `Step` first: if that `Step`
fails, `Continue` returns its error with the state exactly as `Step`
left it — in particular no further kernel request, hence no resume, is
issued; if the `Step` succeeds (and the remaining requests succeed),
`Continue` returns nil and the kernel trace extends the post-`Step`
trace with exactly the continue request carrying signal zero, then the
wait (then the diagnostic register fetch when the stop is a non-trap,
non-exit one). -/
theorem continue_spec (W : World) (s : S) :
    (∀ (e : Err) (s1 : S), Step W s = (Res.err e, s1) → Continue W s = (Res.err e, s1)) ∧
    (∀ s1 : S, Step W s = (Res.ok (), s1) → s1.sched = [] →
      (Continue W s).1 = Res.ok () ∧
      (Continue W s).2.trace =
        s1.trace ++ [Req.cont 0, Req.wait] ++
        (if (W.contRun s1.tpc s1.mem).2.trapCause = -1 ∧
            (W.contRun s1.tpc s1.mem).2.exited = false
         then [Req.getregs] else [])) := by
  constructor
  · intro e s1 h
    simp [Continue, h]
  · intro s1 h hs1
    constructor
    · by_cases hc : (W.contRun s1.tpc s1.mem).2.trapCause = -1 ∧
          (W.contRun s1.tpc s1.mem).2.exited = false
      · simp [Continue, h, contErr, handleResult, waitOp, Registers, popSched, hs1, hc]
      · simp [Continue, h, contErr, handleResult, waitOp, Registers, popSched, hs1, hc]
    · by_cases hc : (W.contRun s1.tpc s1.mem).2.trapCause = -1 ∧
          (W.contRun s1.tpc s1.mem).2.exited = false
      · simp [Continue, h, contErr, handleResult, waitOp, Registers, popSched, hs1, hc]
      · simp [Continue, h, contErr, handleResult, waitOp, Registers, popSched, hs1, hc]

/-- Witness for C6: when the very first kernel request of the initial
`Step` fails, `Continue` returns that error with no resume issued (the
trace holds only the failed register fetch); in the all-success scenario
`Continue` returns nil and the trace is the `Step` trace followed by
exactly the zero-signal continue request and the wait. -/
theorem continue_spec_witness :
    Continue w1 sE = (Res.err (Err.registersErr (Err.kernel 7)), sEout) ∧
    (Continue w1 s1).1 = Res.ok () ∧
    (Continue w1 s1).2.trace =
      [Req.getregs, Req.singlestep, Req.wait, Req.cont 0, Req.wait] := by
  have h1 := (continue_spec w1 sE).1 (Err.registersErr (Err.kernel 7)) sEout rfl
  have h2 := (continue_spec w1 s1).2 s1ok rfl rfl
  refine ⟨h1, h2.1, ?_⟩
  rw [h2.2]
  decide

/-- C7.  The claim says that every successful `Next` leaves the user
breakpoint table identical to the one at entry, all temporary
breakpoints removed.  The code refutes this: because `Next` drops the
return value of `continueToReturnAddress`, a failure after the temporary
breakpoint was placed (here: the single-step request inside the internal
`Continue` fails) leaves the temporary breakpoint installed, yet `Next`
still returns nil once the line changes.  Entry table empty; exit table
holds the temporary breakpoint at 150, with the trap byte still in
tracee memory. -/
theorem next_leaves_temp_breakpoint_installed :
    s7.breakPoints = [] ∧
    (Next w2 5 s7).1 = Res.ok () ∧
    (Next w2 5 s7).2.breakPoints =
      [(150, { functionName := "main.f", file := "main.go", line := 10, addr := 150,
               originalData := 144 })] ∧
    (Next w2 5 s7).2.mem 150 = int3 := by
  refine ⟨rfl, by decide, by decide, by decide⟩

/-- C8.  For every state and base address (with every kernel request
succeeding and the slice length small enough that `8 * len` does not
wrap), `readIntSlice` reads the 24-byte header at the base address —
little-endian data pointer, length `L`, capacity `C` — reads `L × 8`
bytes at the data pointer, and renders exactly
`len: L cap: C [v1 v2 …]` where the `vi` are the `L` little-endian
64-bit words at the data pointer. -/
theorem readIntSlice_spec (s : S) (addr : Nat) (hs : s.sched = [])
    (hlen : 8 * le64 s.mem (addr + 8) < 2 ^ 64) :
    (readIntSlice s addr).1 = Res.ok
      ("len: " ++ Nat.repr (le64 s.mem (addr + 8)) ++ " cap: " ++
       Nat.repr (le64 s.mem (addr + 16)) ++ " " ++
       goFmtNatList ((List.range (le64 s.mem (addr + 8))).map
         (fun j => le64 s.mem (le64 s.mem addr + 8 * j)))) := by
  simp only [readIntSlice, readMemory, popSched, hs]
  simp only [le64OfBytes_take8, le64OfBytes_drop8_take8, le64OfBytes_drop16,
    Nat.mod_eq_of_lt hlen, decodeU64s_readBytes]

/-- Witness for C8: a concrete slice header (data 100, len 3, cap 5)
with elements 1, 2, 3 renders as the literal string
`len: 3 cap: 5 [1 2 3]`. -/
theorem readIntSlice_spec_witness :
    8 * le64 s8.mem (0 + 8) < 2 ^ 64 ∧
    (readIntSlice s8 0).1 = Res.ok "len: 3 cap: 5 [1 2 3]" := by
  have h := readIntSlice_spec s8 0 rfl (by decide)
  exact ⟨by decide, h.trans (by decide)⟩

/-- C9.  `readString` is only safe when the sixteen bytes at the
string's data pointer contain a NUL: for every state (all kernel
requests succeeding) in which none of the sixteen bytes at the decoded
data pointer is zero, the NUL search comes back empty (Go: index `-1`)
and the slice expression `val[:i]` panics with the out-of-range runtime
error instead of returning a value or an error. -/
theorem readString_panics_without_nul (s : S) (addr : Nat) (hs : s.sched = [])
    (hnul : ∀ k, k < 16 → s.mem (le64 s.mem addr + k) ≠ 0) :
    (readString s addr).1 = Res.panic "runtime error: slice bounds out of range" := by
  have hnone : (readBytes s.mem (le64 s.mem addr) 16).findIdx? (fun b => b == 0) =
      none := by
    rw [List.findIdx?_eq_none_iff]
    intro b hb
    have hne := readBytes_all_ne s.mem 16 (le64 s.mem addr) hnul b hb
    simpa using hne
  simp only [readString, readMemory, popSched, hs, le64OfBytes_readBytes8, hnone]

/-- Witness for C9: with every byte of tracee memory equal to 1, no NUL
occurs and `readString` panics. -/
theorem readString_panics_without_nul_witness :
    (readString s9 0).1 = Res.panic "runtime error: slice bounds out of range" := by
  have h := readString_panics_without_nul s9 0 rfl (by decide)
  exact h

/-- C10.  In `Step`, the deferred re-installation assigns the result of
the re-`Break` to the named return value, unconditionally overwriting
it: whenever the single-step kernel request fails (fourth scheduled
request) but the deferred `Break` at the crossed breakpoint's address
succeeds, `Step` returns nil, masking the step failure from the caller;
the trace confirms that the single-step was issued (and, it having
failed, no wait followed) before the re-installing peek/poke. -/
theorem step_masks_singlestep_failure (W : World) (s : S) (bp : BreakPoint)
    (fn : String) (e : Err)
    (hbp : lookupBP s.breakPoints (pred64 s.tpc) = some bp)
    (haddr : bp.addr = pred64 s.tpc)
    (hfn : W.pcFn bp.addr = some fn)
    (horig : bp.originalData ≠ int3)
    (hs : s.sched = [none, none, none, some e]) :
    (Step W s).1 = Res.ok () ∧
    ((Step W s).2).trace = s.trace ++
      [Req.getregs, Req.poke bp.addr bp.originalData, Req.setregs bp.addr s.tsp,
       Req.singlestep, Req.peek bp.addr, Req.poke bp.addr int3] := by
  have hbp2 : lookupBP s.breakPoints bp.addr = some bp := by rw [haddr]; exact hbp
  constructor
  · simp [Step, Registers, Clear, pokeByte, setRegsErr, singleStepErr, handleResult,
      waitOp, popSched, Break, peekByte, hs, hbp, hbp2, hfn, horig]
  · simp [Step, Registers, Clear, pokeByte, setRegsErr, singleStepErr, handleResult,
      waitOp, popSched, Break, peekByte, hs, hbp, hbp2, hfn, horig]

/-- Witness for C10: in the concrete scenario whose single-step request
fails, `Step` returns nil and the trace shows the failed single-step
followed by the successful re-installation. -/
theorem step_masks_singlestep_failure_witness :
    (Step w5 s5f).1 = Res.ok () ∧
    (Step w5 s5f).2.trace =
      [Req.getregs, Req.poke 100 144, Req.setregs 100 5000, Req.singlestep,
       Req.peek 100, Req.poke 100 204] := by
  have h := step_masks_singlestep_failure w5 s5f bp5 "main.f" (Err.kernel 3)
    (by decide) (by decide) (by decide) (by decide) rfl
  exact ⟨h.1, h.2.trans (by decide)⟩

end Proctl
